import Mathlib

/-!
Verification of the remote-monitor core of GUI-PM2-Monitor (src/main.py).

Shallow embedding conventions:
* Python strings are modelled as Lean `String` / `List Char`.
* Python numbers (floats, JSON numbers) are modelled as exact rationals `ℚ`;
  `int(...)` truncation and `round(x, 2)` (round-half-to-even) are modelled
  explicitly.
* Python functions that may raise inside a `try` block are modelled as
  `Option`-valued computations; the surrounding `except` handler applies the
  fallback value.
* `int(s)` / `float(s)` on strings are modelled for their ASCII-decimal core
  (optional surrounding whitespace, optional sign, decimal digits, and for
  float an optional fraction part and exponent), which covers every string
  this program feeds to them.
-/

/-! ## Decimal-digit utilities -/

/-- The decimal digit character for `k` (`k ≤ 9`; larger values clamp to `'9'`,
a case never reached by `natChars`). Models Python decimal rendering. -/
def digitChar (k : Nat) : Char :=
  if k = 0 then '0' else if k = 1 then '1' else if k = 2 then '2'
  else if k = 3 then '3' else if k = 4 then '4' else if k = 5 then '5'
  else if k = 6 then '6' else if k = 7 then '7' else if k = 8 then '8' else '9'

/-- Decimal rendering of a natural number as a character list (no sign, no
leading zeros except for 0 itself). Models Python `str(n)` / f-string
interpolation of a non-negative integer. -/
def natChars (n : Nat) : List Char :=
  if h : n < 10 then [digitChar n]
  else natChars (n / 10) ++ [digitChar (n % 10)]
  termination_by n
  decreasing_by
    exact Nat.div_lt_self (by omega) (by omega)

/-- Value of a list of decimal digit characters, most significant first. -/
def digitsToNat (ds : List Char) : Nat :=
  ds.foldl (fun a c => a * 10 + (c.toNat - 48)) 0

/-- Strip whitespace from both ends of a character list, as Python
`str.strip()` does before `int()` / `float()` conversion. -/
def trimWS (l : List Char) : List Char :=
  ((l.dropWhile Char.isWhitespace).reverse.dropWhile Char.isWhitespace).reverse

/-- Digit-run value: `some` of the value when `ds` is a non-empty run of
decimal digits, otherwise `none`. -/
def digitsVal (ds : List Char) : Option Nat :=
  if ds.isEmpty then none
  else if ds.all Char.isDigit then some (digitsToNat ds) else none

/-- Model of Python `int(s)` on a string: optional surrounding whitespace,
optional sign, then a non-empty run of decimal digits. `none` models the
`ValueError` raised on any other input. -/
def pyIntChars (l : List Char) : Option Int :=
  let t := trimWS l
  if t.head? = some '-' then (digitsVal (t.drop 1)).map (fun n => -(n : Int))
  else if t.head? = some '+' then (digitsVal (t.drop 1)).map (fun n => (n : Int))
  else (digitsVal t).map (fun n => (n : Int))

/-- Model of Python `int(s)` on a `String`. -/
def pyIntStr (s : String) : Option Int := pyIntChars s.data

/-- Exponent suffix of a Python float literal (after the `e`/`E`):
optional sign and a non-empty digit run, scaling the mantissa. -/
def pyFloatExp (mant : ℚ) (r : List Char) : Option ℚ :=
  let (es, r2) : Int × List Char :=
    match r with
    | '-' :: r2 => (-1, r2)
    | '+' :: r2 => (1, r2)
    | r2 => (1, r2)
  match digitsVal r2 with
  | none => none
  | some e => some (mant * (10 : ℚ) ^ (es * (e : Int)))

/-- Model of Python `float(s)` on a string, for finite decimal literals:
optional whitespace and sign, digits with an optional single `.` and an
optional exponent. `none` models the `ValueError` raised otherwise. -/
def pyFloatChars (l : List Char) : Option ℚ :=
  let t := trimWS l
  let (sgn, r) : ℚ × List Char :=
    match t with
    | '-' :: r => (-1, r)
    | '+' :: r => (1, r)
    | r => (1, r)
  let ip := r.takeWhile Char.isDigit
  let r1 := r.dropWhile Char.isDigit
  let (fp, r2) : List Char × List Char :=
    match r1 with
    | '.' :: r3 => (r3.takeWhile Char.isDigit, r3.dropWhile Char.isDigit)
    | _ => ([], r1)
  if ip.isEmpty && fp.isEmpty then none
  else if ¬ (ip.all Char.isDigit ∧ fp.all Char.isDigit) then none
  else
    let mant : ℚ := sgn * ((digitsToNat ip : ℚ) + (digitsToNat fp : ℚ) / (10 : ℚ) ^ fp.length)
    match r2 with
    | [] => some mant
    | 'e' :: r3 => pyFloatExp mant r3
    | 'E' :: r3 => pyFloatExp mant r3
    | _ => none

/-- Model of Python `float(s)` on a `String`. -/
def pyFloatStr (s : String) : Option ℚ := pyFloatChars s.data

/-- Split a character list at every occurrence of `c`, exactly as Python
`str.split(c)` does for a single-character separator: `n` occurrences of `c`
yield `n + 1` chunks, possibly empty. -/
def splitOnChar (c : Char) : List Char → List (List Char)
  | [] => [[]]
  | x :: xs =>
    if x = c then [] :: splitOnChar c xs
    else
      match splitOnChar c xs with
      | [] => [[x]]
      | h :: t => (x :: h) :: t

/-- Round half to even at integer precision, as Python `round` does. -/
def roundHalfEven (q : ℚ) : ℤ :=
  let f := ⌊q⌋
  if q - f < 1 / 2 then f
  else if q - f > 1 / 2 then f + 1
  else if f % 2 = 0 then f else f + 1

/-- Model of Python `round(x, 2)`: round half to even at two decimals. -/
def round2 (q : ℚ) : ℚ := (roundHalfEven (q * 100) : ℚ) / 100

/-! ## format_uptime (src/main.py lines 339-352) -/

/-- The rendered uptime string `"{d}d {h}h {m}m {s}s"` of main.py line 350. -/
def uptimeString (d h m s : Nat) : String :=
  String.mk (natChars d ++ ('d' :: (' ' :: (natChars h ++ ('h' :: (' ' ::
    (natChars m ++ ('m' :: (' ' :: (natChars s ++ ('s' :: ([] : List Char))))))))))))

/-- Embedding of `format_uptime(epoch_time)` (main.py 339-352). `epoch_time`
is the epoch-millisecond start time (Python `None` = `none`); `now` is the
value of `time.time()` in seconds. Python `if not epoch_time` is true for
both `None` and `0`. `int()` on the non-negative elapsed value is `⌊·⌋`. -/
def format_uptime (epoch_time : Option ℚ) (now : ℚ) : String :=
  match epoch_time with
  | none => "N/A"
  | some e =>
    if e = 0 then "N/A"
    else
      let uptime_seconds := now - e / 1000
      if uptime_seconds < 0 then "N/A"
      else
        let t : Nat := (⌊uptime_seconds⌋).toNat
        let days := t / 86400
        let r1 := t % 86400
        let hours := r1 / 3600
        let r2 := r1 % 3600
        let minutes := r2 / 60
        let seconds := r2 % 60
        uptimeString days hours minutes seconds

/-! ## parse_uptime (src/main.py lines 1138-1155) -/

/-- One stage of `parse_uptime`: the three-line pattern
`if c in u: v = int(u.split(c)[0]); u = u.split(c)[1]` of main.py 1141-1149.
Returns the parsed component and the remaining text; `none` models a
`ValueError` from `int()`. -/
def uptimeComponent (c : Char) (u : List Char) : Option (Int × List Char) :=
  if u.contains c then
    match pyIntChars ((splitOnChar c u).getD 0 []) with
    | none => none
    | some v => some (v, (splitOnChar c u).getD 1 [])
  else some (0, u)

/-- The body of the `try` block of `parse_uptime` (main.py 1139-1153). -/
def parseUptimeChars (u0 : List Char) : Option Int :=
  match uptimeComponent 'd' u0 with
  | none => none
  | some (days, u1) =>
    match uptimeComponent 'h' u1 with
    | none => none
    | some (hours, u2) =>
      match uptimeComponent 'm' u2 with
      | none => none
      | some (minutes, u3) =>
        match uptimeComponent 's' u3 with
        | none => none
        | some (seconds, _) =>
          some (days * 86400 + hours * 3600 + minutes * 60 + seconds)

/-- Embedding of `PM2MonitorApp.parse_uptime` (main.py 1138-1155): the bare
`except:` returns `0` on any failure. -/
def parse_uptime (s : String) : Int :=
  match parseUptimeChars s.data with
  | some n => n
  | none => 0

/-! ## Service records and get_pm2_services (src/main.py lines 262-290) -/

/-- The fields of the `monit` sub-object read by `get_pm2_services`
(`svc.get('monit', {}).get(...)`). Absent fields are `none`. -/
structure Monit where
  cpu : Option ℚ := none
  memory : Option ℚ := none
deriving DecidableEq

/-- The empty dict `{}` default of `svc.get('monit', {})`. -/
def emptyMonit : Monit := {}

/-- The fields of the `pm2_env` sub-object read by `get_pm2_services`. -/
structure Pm2Env where
  version : Option String := none
  status : Option String := none
  PORT : Option String := none
  pm_uptime : Option ℚ := none
  pm_out_log_path : Option String := none
  pm_err_log_path : Option String := none
deriving DecidableEq

/-- The empty dict `{}` default of `svc.get('pm2_env', {})`. -/
def emptyPm2Env : Pm2Env := {}

/-- One element of the parsed `pm2 jlist` JSON array, restricted to the
fields `get_pm2_services` reads. Absent fields are `none`. -/
structure SvcJson where
  pm_id : Option Int := none
  name : Option String := none
  pm2_env : Option Pm2Env := none
  monit : Option Monit := none
deriving DecidableEq

/-- The record dict built for each service (main.py 273-284). -/
structure ServiceRecord where
  id : Option Int
  appName : Option String
  version : String
  status : Option String
  cpu : ℚ
  memoryMB : ℚ
  uptime : String
  outLogPath : String
  errLogPath : String
  port : String
deriving DecidableEq

/-- Default record used only as the out-of-range fallback of `List.getD`. -/
def blankRecord : ServiceRecord :=
  ⟨none, none, "", none, 0, 0, "", "", "", ""⟩

/-- Default element used only as the out-of-range fallback of `List.getD`. -/
def blankSvc : SvcJson := {}

/-- The per-element mapping of main.py 269-284: memory bytes → MB with
`round(_, 2)`, defaults `'N/A'` for version/PORT, `0` for cpu/memory, and
uptime derived by `format_uptime` from `pm_uptime` and the current time. -/
def mkServiceRecord (now : ℚ) (svc : SvcJson) : ServiceRecord :=
  let memory_bytes := ((svc.monit.getD emptyMonit).memory).getD 0
  let memory_mb := round2 (memory_bytes / (1024 * 1024))
  let port := ((svc.pm2_env.getD emptyPm2Env).PORT).getD "N/A"
  let pm_uptime := (svc.pm2_env.getD emptyPm2Env).pm_uptime
  { id := svc.pm_id
    appName := svc.name
    version := ((svc.pm2_env.getD emptyPm2Env).version).getD "N/A"
    status := (svc.pm2_env.getD emptyPm2Env).status
    cpu := ((svc.monit.getD emptyMonit).cpu).getD 0
    memoryMB := memory_mb
    uptime := format_uptime pm_uptime now
    outLogPath := ((svc.pm2_env.getD emptyPm2Env).pm_out_log_path).getD ""
    errLogPath := ((svc.pm2_env.getD emptyPm2Env).pm_err_log_path).getD ""
    port := port }

/-- Embedding of `get_pm2_services` (main.py 262-290). `output` is the result
of `execute_command` (`none` = failure); Python `if output:` is false for
`None` and for the empty string. `parse` abstracts `json.loads` restricted to
results that are JSON arrays of service objects; `parse s = none` models a
`json.JSONDecodeError`, which the function catches (error dialog) before
falling through to `return []`. -/
def get_pm2_services (output : Option String)
    (parse : String → Option (List SvcJson)) (now : ℚ) : List ServiceRecord :=
  match output with
  | none => []
  | some s =>
    if s = "" then []
    else
      match parse s with
      | none => []
      | some svcs => svcs.map (mkServiceRecord now)

/-! ## sort_column (src/main.py lines 1105-1136) -/

/-- A cell value of the display table: a Python int/float, a string, or
`None` (an absent `pm_id`). -/
inductive CellVal where
  | num (q : ℚ)
  | str (s : String)
  | pynone
deriving DecidableEq

/-- Python `int(x)` on a float truncates toward zero. -/
def ratTrunc (q : ℚ) : ℤ := if q < 0 then -⌊-q⌋ else ⌊q⌋

/-- The sort key of main.py 1110 for the numeric columns `CPU (%)`,
`Memory (MB)`, `PORT`:
`float(x) if isinstance(x, (int, float, str)) and x != 'N/A' else -1`.
`none` models the `ValueError` that `float` raises on an unparseable
string, which aborts the whole `sorted` call. -/
def numeric_sort_key (v : CellVal) : Option ℚ :=
  match v with
  | .num q => some q
  | .str s => if s = "N/A" then some (-1) else pyFloatStr s
  | .pynone => some (-1)

/-- The sort key of main.py 1116 for the `ID` column, with `int` in place of
`float`. -/
def id_sort_key (v : CellVal) : Option ℤ :=
  match v with
  | .num q => some (ratTrunc q)
  | .str s => if s = "N/A" then some (-1) else pyIntStr s
  | .pynone => some (-1)

/-- Stable insertion of `x` into a sorted list: `x` goes before the first
element it compares `le` to. -/
def insertLe {α : Type} (le : α → α → Bool) (x : α) : List α → List α
  | [] => [x]
  | y :: ys => if le x y then x :: y :: ys else y :: insertLe le x ys

/-- Stable sort (insertion sort), modelling Python's stable `sorted`. -/
def stableSort {α : Type} (le : α → α → Bool) : List α → List α
  | [] => []
  | x :: xs => insertLe le x (stableSort le xs)

/-- Embedding of the numeric-column branch of `sort_column` (main.py
1107-1112, 1131-1135): compute the key of every record, sort stably by key.
If any key raises (`none`), `sorted` raises, the `except` branch shows an
error dialog and `self.filtered_services` is left unchanged — modelled as
`none`. -/
def sort_column_numeric (recs : List CellVal) (reverse : Bool) :
    Option (List CellVal) :=
  match recs.mapM (fun v => (numeric_sort_key v).map (fun k => (k, v))) with
  | none => none
  | some keyed =>
    some ((stableSort
      (fun a b => if reverse then decide (b.1 ≤ a.1) else decide (a.1 ≤ b.1))
      keyed).map (fun p => p.2))

/-- Embedding of the `ID`-column branch of `sort_column` (main.py 1113-1118). -/
def sort_column_id (recs : List CellVal) (reverse : Bool) :
    Option (List CellVal) :=
  match recs.mapM (fun v => (id_sort_key v).map (fun k => (k, v))) with
  | none => none
  | some keyed =>
    some ((stableSort
      (fun a b => if reverse then decide (b.1 ≤ a.1) else decide (a.1 ≤ b.1))
      keyed).map (fun p => p.2))

/-! ## update_treeview (src/main.py lines 1060-1103) -/

/-- Embedding of `PM2MonitorApp.update_treeview`. The treeview is an ordered
list of rows, each `(id, values)`; `rows` is the previous display state and
`fresh` the filtered fresh records keyed by their `ID`. Faithful to the
source: `existing_items` is the id set of the previous rows, computed once;
the loop updates matching rows in place and appends the rest in order
(`tree.insert('', 'end', ...)`); the final loop deletes every previous row
whose id is not among the fresh ids. Row ids in a treeview are unique (each
row is created with `iid=app_id`), which the theorems carry as a `Nodup`
hypothesis. -/
def update_treeview {α : Type} (rows : List (Int × α)) (fresh : List (Int × α)) :
    List (Int × α) :=
  let existing_ids := rows.map Prod.fst
  let after_upsert :=
    fresh.foldl
      (fun acc s =>
        if s.1 ∈ existing_ids then
          acc.map (fun r => if r.1 = s.1 then s else r)
        else acc ++ [s])
      rows
  let new_ids := fresh.map Prod.fst
  after_upsert.filter (fun r => decide (r.1 ∈ new_ids ∨ r.1 ∉ existing_ids))

/-- The reconciliation result as the specification describes it: rows present
in both keep their position and take the fresh values, rows only in the fresh
set are appended in order, rows only in the previous display disappear. -/
def reconcileSpec {α : Type} (rows : List (Int × α)) (fresh : List (Int × α)) :
    List (Int × α) :=
  ((rows.map (fun r =>
      match fresh.lookup r.1 with
      | some v => (r.1, v)
      | none => r)).filter
    (fun r => decide (r.1 ∈ fresh.map Prod.fst)))
  ++ fresh.filter (fun s => decide (s.1 ∉ rows.map Prod.fst))

/-! ## SSHClientWrapper.execute_command (src/main.py lines 210-247) -/

/-- Outcome of one `client.exec_command` call: a transport-level exception, or
captured stdout/stderr text. -/
inductive ExecOutcome where
  | raise
  | ok (out err : String)
deriving DecidableEq

/-- Oracle for one `execute_command` call: whether the transport is active on
entry, whether the k-th in-call `client.connect` network handshake (main.py
179-185) succeeds, and the outcome of the k-th `exec_command` call.

`connect()` catches all of its own exceptions (main.py 188-196), so it never
raises. But when the handshake succeeds, `connect()` goes on to call
`check_required_commands()` (main.py 187), which re-enters `execute_command`
(main.py 202) and blocks forever on the non-reentrant `self.lock` that the
outer `execute_command` already holds (main.py 171, 211). So a `connect()`
issued from inside `execute_command` either deadlocks (handshake succeeded)
or returns with the transport still down (handshake failed); only the
`__init__`-time `connect()`, made without the lock held, can complete with a
live transport. -/
structure SSHEnv where
  activeStart : Bool
  connectActive : Nat → Bool
  execRes : Nat → ExecOutcome

/-- Result of one `execute_command` call: either the call returns (`res` is
the Python return value, `None` = failure; `execs` counts the
`exec_command` invocations made), or the thread hangs forever inside an
in-call `connect()` on the held non-reentrant lock. -/
inductive CallOutcome where
  | ret (res : Option String) (execs : Nat)
  | hang
deriving DecidableEq

/-- Model of `command.startswith('pm2 ')` (main.py 223, 239): the first four
characters are `p`, `m`, `2`, space. -/
def startsWithPm2 (cmd : String) : Bool :=
  match cmd.data with
  | 'p' :: 'm' :: '2' :: ' ' :: _ => true
  | _ => false

/-- The stderr-as-failure policy of main.py 223 and 239: non-empty stderr is
an error unless the command starts with `'pm2 '`. -/
def stderrFails (cmd err : String) : Bool :=
  ¬ (err = "") ∧ ¬ (startsWithPm2 cmd = true)

/-- The retry branch of `execute_command` (main.py 230-243, inside the outer
`except`): call `connect()` again. A successful handshake deadlocks inside
`connect()` (see `SSHEnv`) before line 233 is reached, so the re-issue of
the command at main.py 236 never executes; a failed handshake leaves the
fresh `SSHClient` without a transport, `get_transport()` returns `None`,
line 233 raises `AttributeError`, and the inner `except` (main.py 244-247)
returns `None`. `cUsed`/`eUsed` count the `connect` / `exec` calls already
made. -/
def retryBranch (env : SSHEnv) (cUsed eUsed : Nat) : CallOutcome :=
  if env.connectActive cUsed then CallOutcome.hang
  else CallOutcome.ret none eUsed

/-- The first attempt of `execute_command` (main.py 219-227) together with
the outer `except` that enters the retry branch (main.py 228-247): issue the
command; on a transport exception or on the stderr policy, fall through to
`retryBranch`. `cUsed` counts the `connect` calls already made by the
liveness check. -/
def execAttempt (cmd : String) (env : SSHEnv) (cUsed : Nat) : CallOutcome :=
  match env.execRes 0 with
  | .raise => retryBranch env cUsed 1
  | .ok out err =>
    if stderrFails cmd err then retryBranch env cUsed 1
    else CallOutcome.ret (some out) 1

/-- Embedding of `SSHClientWrapper.execute_command` (main.py 210-247), the
whole body of which runs under the non-reentrant `self.lock`. With an active
transport at entry, the command is issued once and the stderr policy applied.
With an inactive transport, the liveness check calls `connect()` (main.py
215): a successful handshake deadlocks inside `connect()`; a failed one
leaves the transport down, the re-check at main.py 216 raises
`AttributeError` (`get_transport()` is `None`), and the outer `except`
enters the retry branch, whose second `connect()` again either deadlocks or
ends in `None` with the command never issued. (A client object that exists
but never connected raises at main.py 213 and lands in the same retry
branch, one `connect()` call earlier.) -/
def execute_command (cmd : String) (env : SSHEnv) : CallOutcome :=
  if env.activeStart then execAttempt cmd env 0
  else if env.connectActive 0 then CallOutcome.hang
  else retryBranch env 1 0

/-- First-attempt failure: a transport exception, or the stderr policy. -/
def attemptFails (r : ExecOutcome) (cmd : String) : Prop :=
  r = .raise ∨ ∃ out err, r = .ok out err ∧ stderrFails cmd err = true

/-! ## Supporting lemmas: digits, rendering, parsing -/

lemma digitChar_isDigit (k : Nat) : (digitChar k).isDigit = true := by
  unfold digitChar
  split_ifs <;> decide

lemma digitChar_toNat {k : Nat} (h : k < 10) : (digitChar k).toNat - 48 = k := by
  interval_cases k <;> decide

lemma natChars_all_digit (n : Nat) : ∀ c ∈ natChars n, c.isDigit = true := by
  induction n using Nat.strong_induction_on with
  | _ n ih =>
    rw [natChars]
    split
    · intro c hc
      simp only [List.mem_singleton] at hc
      subst hc
      exact digitChar_isDigit n
    · intro c hc
      rcases List.mem_append.mp hc with h | h
      · exact ih (n / 10) (Nat.div_lt_self (by omega) (by omega)) c h
      · simp only [List.mem_singleton] at h
        subst h
        exact digitChar_isDigit _

lemma natChars_ne_nil (n : Nat) : natChars n ≠ [] := by
  rw [natChars]
  split <;> simp

lemma digitsToNat_append_digit (xs : List Char) (c : Char) :
    digitsToNat (xs ++ [c]) = digitsToNat xs * 10 + (c.toNat - 48) := by
  unfold digitsToNat
  rw [List.foldl_append]
  rfl

lemma digitsToNat_natChars (n : Nat) : digitsToNat (natChars n) = n := by
  induction n using Nat.strong_induction_on with
  | _ n ih =>
    rw [natChars]
    split
    · next h =>
      show digitsToNat [digitChar n] = n
      unfold digitsToNat
      simp only [List.foldl_cons, List.foldl_nil, Nat.zero_mul, Nat.zero_add]
      exact digitChar_toNat h
    · next h =>
      rw [digitsToNat_append_digit, ih (n / 10) (Nat.div_lt_self (by omega) (by omega)),
        digitChar_toNat (Nat.mod_lt _ (by omega))]
      omega

lemma digit_not_ws {c : Char} (h : c.isDigit = true) : c.isWhitespace = false := by
  by_contra hw
  rw [Bool.not_eq_false] at hw
  simp only [Char.isWhitespace, Bool.or_eq_true, decide_eq_true_eq] at hw
  rcases hw with ((h1 | h1) | h1) | h1 <;> subst h1 <;> exact absurd h (by decide)

lemma digit_ne {c x : Char} (h : c.isDigit = true) (hx : x.isDigit = false) : c ≠ x := by
  intro he
  subst he
  simp [h] at hx

lemma not_mem_of_all_digit {x : Char} {l : List Char} (hx : x.isDigit = false)
    (h : ∀ c ∈ l, c.isDigit = true) : x ∉ l := by
  intro hm
  have := h x hm
  simp [this] at hx

lemma dropWhile_ws_digits {l : List Char} (h : ∀ c ∈ l, c.isDigit = true) :
    l.dropWhile Char.isWhitespace = l := by
  cases l with
  | nil => rfl
  | cons c rest =>
    rw [List.dropWhile_cons]
    simp [digit_not_ws (h c (by simp))]

lemma trimWS_digits {l : List Char} (h : ∀ c ∈ l, c.isDigit = true) : trimWS l = l := by
  unfold trimWS
  rw [dropWhile_ws_digits h, dropWhile_ws_digits (fun c hc => h c (List.mem_reverse.mp hc)),
    List.reverse_reverse]

lemma pyIntChars_digits {l : List Char} (hne : l ≠ [])
    (h : ∀ c ∈ l, c.isDigit = true) : pyIntChars l = some (digitsToNat l : Int) := by
  unfold pyIntChars
  rw [trimWS_digits h]
  obtain ⟨c, rest, rfl⟩ := List.exists_cons_of_ne_nil hne
  have hd := h c (by simp)
  simp only [List.head?_cons, Option.some.injEq]
  rw [if_neg (digit_ne hd (by decide)), if_neg (digit_ne hd (by decide))]
  unfold digitsVal
  rw [if_neg (by simp), if_pos (by simpa [List.all_eq_true] using h)]
  rfl

lemma pyIntChars_cons_space (l : List Char) : pyIntChars (' ' :: l) = pyIntChars l := by
  have hws : (' ' : Char).isWhitespace = true := by decide
  unfold pyIntChars trimWS
  rw [List.dropWhile_cons, hws]
  simp

lemma pyIntChars_natChars (n : Nat) : pyIntChars (natChars n) = some (n : Int) := by
  rw [pyIntChars_digits (natChars_ne_nil n) (natChars_all_digit n), digitsToNat_natChars]

lemma splitOnChar_not_mem {c : Char} {l : List Char} (h : c ∉ l) :
    splitOnChar c l = [l] := by
  induction l with
  | nil => rfl
  | cons x xs ih =>
    have hx : ¬ x = c := by
      rintro rfl
      exact h (by simp)
    have hxs : c ∉ xs := fun hm => h (by simp [hm])
    rw [splitOnChar, if_neg hx, ih hxs]

lemma splitOnChar_append {c : Char} {pre suf : List Char} (h : c ∉ pre) :
    splitOnChar c (pre ++ c :: suf) = pre :: splitOnChar c suf := by
  induction pre with
  | nil => simp [splitOnChar]
  | cons x xs ih =>
    have hx : ¬ x = c := by
      rintro rfl
      exact h (by simp)
    have hxs : c ∉ xs := fun hm => h (by simp [hm])
    rw [List.cons_append, splitOnChar, if_neg hx, ih hxs]

lemma splitOnChar_sandwich {c : Char} {pre suf : List Char} (h1 : c ∉ pre)
    (h2 : c ∉ suf) : splitOnChar c (pre ++ c :: suf) = [pre, suf] := by
  rw [splitOnChar_append h1, splitOnChar_not_mem h2]

lemma uptimeComponent_sandwich {c : Char} {pre suf : List Char}
    (h1 : c ∉ pre) (h2 : c ∉ suf) {v : Int} (hv : pyIntChars pre = some v) :
    uptimeComponent c (pre ++ c :: suf) = some (v, suf) := by
  unfold uptimeComponent
  have hc : (pre ++ c :: suf).contains c = true := by simp
  rw [hc, if_pos rfl, splitOnChar_sandwich h1 h2]
  simp [hv]

lemma uptimeComponent_absent {c : Char} {u : List Char} (h : c ∉ u) :
    uptimeComponent c u = some (0, u) := by
  unfold uptimeComponent
  have hc : u.contains c = false := by simpa using h
  rw [hc]
  simp

lemma pyIntChars_space_natChars (n : Nat) :
    pyIntChars (' ' :: natChars n) = some (n : Int) := by
  rw [pyIntChars_cons_space, pyIntChars_natChars]

lemma marker_not_mem_natChars {x : Char} (hx : x.isDigit = false) (n : Nat) :
    x ∉ natChars n :=
  not_mem_of_all_digit hx (natChars_all_digit n)

lemma uptimeString_data (d h m s : Nat) :
    (uptimeString d h m s).data
      = natChars d ++ ('d' :: (' ' :: (natChars h ++ ('h' :: (' ' ::
        (natChars m ++ ('m' :: (' ' :: (natChars s ++ ('s' :: ([] : List Char))))))))))) := rfl

/-- C7, part of the proof: the four parsing stages on a rendered string. -/
theorem parse_uptime_uptimeString (d h m s : Nat) :
    parse_uptime (uptimeString d h m s)
      = (d : Int) * 86400 + (h : Int) * 3600 + (m : Int) * 60 + (s : Int) := by
  have hd1 : ('d' : Char) ∉ (' ' :: (natChars h ++ ('h' :: (' ' ::
      (natChars m ++ ('m' :: (' ' :: (natChars s ++ ('s' :: ([] : List Char)))))))))) := by
    simp +decide [List.mem_cons, List.mem_append, marker_not_mem_natChars]
  have s1 : uptimeComponent 'd' (uptimeString d h m s).data
      = some ((d : Int), ' ' :: (natChars h ++ ('h' :: (' ' ::
          (natChars m ++ ('m' :: (' ' :: (natChars s ++ ('s' :: ([] : List Char)))))))))) := by
    rw [uptimeString_data]
    exact uptimeComponent_sandwich (marker_not_mem_natChars (by decide) d) hd1
      (pyIntChars_natChars d)
  have hh1 : ('h' : Char) ∉ (' ' :: natChars h) := by
    simp +decide [List.mem_cons, marker_not_mem_natChars]
  have hh2 : ('h' : Char) ∉ (' ' :: (natChars m ++ ('m' :: (' ' ::
      (natChars s ++ ('s' :: ([] : List Char))))))) := by
    simp +decide [List.mem_cons, List.mem_append, marker_not_mem_natChars]
  have s2 : uptimeComponent 'h' (' ' :: (natChars h ++ ('h' :: (' ' ::
        (natChars m ++ ('m' :: (' ' :: (natChars s ++ ('s' :: ([] : List Char))))))))))
      = some ((h : Int), ' ' :: (natChars m ++ ('m' :: (' ' ::
          (natChars s ++ ('s' :: ([] : List Char))))))) := by
    rw [show (' ' :: (natChars h ++ ('h' :: (' ' :: (natChars m ++ ('m' :: (' ' ::
          (natChars s ++ ('s' :: ([] : List Char))))))))))
        = (' ' :: natChars h) ++ ('h' :: (' ' :: (natChars m ++ ('m' :: (' ' ::
          (natChars s ++ ('s' :: ([] : List Char))))))))
      from (List.cons_append _ _ _).symm]
    exact uptimeComponent_sandwich hh1 hh2 (pyIntChars_space_natChars h)
  have hm1 : ('m' : Char) ∉ (' ' :: natChars m) := by
    simp +decide [List.mem_cons, marker_not_mem_natChars]
  have hm2 : ('m' : Char) ∉ (' ' :: (natChars s ++ ('s' :: ([] : List Char)))) := by
    simp +decide [List.mem_cons, List.mem_append, marker_not_mem_natChars]
  have s3 : uptimeComponent 'm' (' ' :: (natChars m ++ ('m' :: (' ' ::
        (natChars s ++ ('s' :: ([] : List Char)))))))
      = some ((m : Int), ' ' :: (natChars s ++ ('s' :: ([] : List Char)))) := by
    rw [show (' ' :: (natChars m ++ ('m' :: (' ' :: (natChars s ++ ('s' :: ([] : List Char)))))))
        = (' ' :: natChars m) ++ ('m' :: (' ' :: (natChars s ++ ('s' :: ([] : List Char)))))
      from (List.cons_append _ _ _).symm]
    exact uptimeComponent_sandwich hm1 hm2 (pyIntChars_space_natChars m)
  have hs1 : ('s' : Char) ∉ (' ' :: natChars s) := by
    simp +decide [List.mem_cons, marker_not_mem_natChars]
  have s4 : uptimeComponent 's' (' ' :: (natChars s ++ ('s' :: ([] : List Char))))
      = some ((s : Int), ([] : List Char)) := by
    rw [show (' ' :: (natChars s ++ ('s' :: ([] : List Char))))
        = (' ' :: natChars s) ++ ('s' :: ([] : List Char))
      from (List.cons_append _ _ _).symm]
    exact uptimeComponent_sandwich hs1 (by simp) (pyIntChars_space_natChars s)
  unfold parse_uptime parseUptimeChars
  rw [s1]
  simp only [s2, s3, s4]

/-- C7: `parse_uptime` is the inverse of the uptime formatter: parsing the
rendered string `"{d}d {h}h {m}m {s}s"` gives back the total seconds
`d*86400 + h*3600 + m*60 + s`, so sorting uptime strings by this key is
chronological; in particular `"0d 23h 59m 59s"` keys strictly below
`"1d 0h 0m 0s"`. -/
theorem parse_uptime_inverse_of_format :
    (∀ d h m s : Nat, h < 24 → m < 60 → s < 60 →
      parse_uptime (uptimeString d h m s)
        = (d : Int) * 86400 + (h : Int) * 3600 + (m : Int) * 60 + (s : Int)) ∧
    parse_uptime "0d 23h 59m 59s" < parse_uptime "1d 0h 0m 0s" := by
  refine ⟨fun d h m s _ _ _ => parse_uptime_uptimeString d h m s, by decide⟩

/-- Witness for C7 at `d=1, h=2, m=3, s=4`. -/
theorem parse_uptime_inverse_of_format_witness :
    parse_uptime (uptimeString 1 2 3 4) = 93784 := by
  have h := parse_uptime_inverse_of_format.1 1 2 3 4 (by norm_num) (by norm_num) (by norm_num)
  rw [h]
  norm_num

/-- C10: `parse_uptime` is total and never raises: the sentinel `"N/A"` and
any string without parseable day/hour/minute/second components yield the key
`0`, and any internal parse failure also yields `0`. -/
theorem parse_uptime_default_zero :
    parse_uptime "N/A" = 0 ∧
    (∀ s : String, ('d' : Char) ∉ s.data → ('h' : Char) ∉ s.data →
      ('m' : Char) ∉ s.data → ('s' : Char) ∉ s.data → parse_uptime s = 0) ∧
    (∀ s : String, parseUptimeChars s.data = none → parse_uptime s = 0) := by
  refine ⟨by decide, ?_, ?_⟩
  · intro s h1 h2 h3 h4
    unfold parse_uptime parseUptimeChars
    rw [uptimeComponent_absent h1]
    simp only [uptimeComponent_absent h2, uptimeComponent_absent h3, uptimeComponent_absent h4]
    norm_num
  · intro s h
    unfold parse_uptime
    rw [h]

/-- Witness for C10 at the concrete sentinel string. -/
theorem parse_uptime_default_zero_witness :
    (('d' : Char) ∉ ("N/A" : String).data) ∧ parse_uptime "N/A" = 0 :=
  ⟨by decide, parse_uptime_default_zero.2.1 "N/A" (by decide) (by decide) (by decide) (by decide)⟩

/-- C6 counterexample: for the start time 0 epoch-milliseconds and current
time 100 s the elapsed value is 100 ≥ 0 and the start time is present, yet
`format_uptime` returns `"N/A"` (Python `if not epoch_time` treats `0` as
missing) instead of the decomposition `"0d 0h 1m 40s"` the claim requires. -/
theorem format_uptime_zero_start_cex :
    format_uptime (some 0) 100 = "N/A" ∧
    format_uptime (some 0) 100 ≠ "0d 0h 1m 40s" := by
  have h1 : format_uptime (some 0) 100 = "N/A" := by simp [format_uptime]
  refine ⟨h1, ?_⟩
  rw [h1]
  decide

/-- C6 (amended): the uptime formatter never renders a negative duration: a
missing or zero start time yields `"N/A"`, a negative elapsed value yields
`"N/A"`, and otherwise the elapsed seconds are decomposed into days, hours,
minutes, seconds by successive integer division by 86400, 3600 and 60 and
rendered as `"Xd Yh Zm Ws"`. -/
theorem format_uptime_safe :
    (∀ now : ℚ, format_uptime none now = "N/A") ∧
    (∀ now : ℚ, format_uptime (some 0) now = "N/A") ∧
    (∀ e now : ℚ, now - e / 1000 < 0 → format_uptime (some e) now = "N/A") ∧
    (∀ e now : ℚ, e ≠ 0 → 0 ≤ now - e / 1000 →
      format_uptime (some e) now
        = uptimeString ((⌊now - e / 1000⌋).toNat / 86400)
            ((⌊now - e / 1000⌋).toNat % 86400 / 3600)
            ((⌊now - e / 1000⌋).toNat % 86400 % 3600 / 60)
            ((⌊now - e / 1000⌋).toNat % 86400 % 3600 % 60)) := by
  refine ⟨fun now => rfl, fun now => by simp [format_uptime], ?_, ?_⟩
  · intro e now hneg
    simp only [format_uptime]
    split_ifs with h1
    · rfl
    · rfl
  · intro e now hne hnn
    simp only [format_uptime]
    rw [if_neg hne, if_neg (not_lt.mpr hnn)]

/-- Witness for C6 (amended): elapsed 90061 s renders `"1d 1h 1m 1s"`. -/
theorem format_uptime_safe_witness :
    format_uptime (some 1000) 90062 = "1d 1h 1m 1s" := by
  have h := format_uptime_safe.2.2.2 1000 90062 (by norm_num) (by norm_num)
  rw [h]
  have hf : (⌊(90062 : ℚ) - 1000 / 1000⌋) = 90061 := by norm_num
  rw [hf]
  norm_num
  simp [uptimeString, natChars, digitChar]

/-! ## Claims C4 and C5: get_pm2_services -/

lemma getD_map_of_lt {α β : Type} (f : α → β) (l : List α) {i : Nat}
    (h : i < l.length) (d : β) (d2 : α) :
    (l.map f).getD i d = f (l.getD i d2) := by
  rw [List.getD_eq_getElem?_getD, List.getD_eq_getElem?_getD, List.getElem?_map,
    List.getElem?_eq_getElem h]
  rfl

lemma round2_zero : round2 0 = 0 := by
  simp only [round2, roundHalfEven]
  norm_num

/-- C4: for a well-formed parsed listing of `N` services, `get_pm2_services`
returns exactly `N` records; each record's `memoryMB` is the memory byte
count divided by 1048576 rounded (half-to-even) to two decimals; an absent
`version` or `PORT` maps to `"N/A"`, and absent `cpu`/`memory` map to `0`. -/
theorem get_pm2_services_mapping
    (parse : String → Option (List SvcJson)) (now : ℚ) (s : String)
    (svcs : List SvcJson) (hs : s ≠ "") (hp : parse s = some svcs) :
    (get_pm2_services (some s) parse now).length = svcs.length ∧
    (∀ i, i < svcs.length →
      ((get_pm2_services (some s) parse now).getD i blankRecord).memoryMB
        = round2 ((((svcs.getD i blankSvc).monit.getD emptyMonit).memory.getD 0) / 1048576)) ∧
    (∀ i, i < svcs.length →
      ((svcs.getD i blankSvc).pm2_env.getD emptyPm2Env).version = none →
      ((get_pm2_services (some s) parse now).getD i blankRecord).version = "N/A") ∧
    (∀ i, i < svcs.length →
      ((svcs.getD i blankSvc).pm2_env.getD emptyPm2Env).PORT = none →
      ((get_pm2_services (some s) parse now).getD i blankRecord).port = "N/A") ∧
    (∀ i, i < svcs.length →
      ((svcs.getD i blankSvc).monit.getD emptyMonit).cpu = none →
      ((get_pm2_services (some s) parse now).getD i blankRecord).cpu = 0) ∧
    (∀ i, i < svcs.length →
      ((svcs.getD i blankSvc).monit.getD emptyMonit).memory = none →
      ((get_pm2_services (some s) parse now).getD i blankRecord).memoryMB = 0) := by
  have hres : get_pm2_services (some s) parse now = svcs.map (mkServiceRecord now) := by
    simp only [get_pm2_services]
    rw [if_neg hs, hp]
  refine ⟨by rw [hres]; simp, ?_, ?_, ?_, ?_, ?_⟩
  · intro i hi
    rw [hres, getD_map_of_lt _ _ hi blankRecord blankSvc]
    simp only [mkServiceRecord]
    norm_num
  · intro i hi hv
    rw [hres, getD_map_of_lt _ _ hi blankRecord blankSvc]
    simp only [List.getD_eq_getElem?_getD] at hv
    simp [mkServiceRecord, hv]
  · intro i hi hv
    rw [hres, getD_map_of_lt _ _ hi blankRecord blankSvc]
    simp only [List.getD_eq_getElem?_getD] at hv
    simp [mkServiceRecord, hv]
  · intro i hi hv
    rw [hres, getD_map_of_lt _ _ hi blankRecord blankSvc]
    simp only [List.getD_eq_getElem?_getD] at hv
    simp [mkServiceRecord, hv]
  · intro i hi hv
    rw [hres, getD_map_of_lt _ _ hi blankRecord blankSvc]
    simp only [List.getD_eq_getElem?_getD] at hv
    simp [mkServiceRecord, hv, round2_zero]

/-- Witness for C4 at a one-element listing with no optional fields. -/
theorem get_pm2_services_mapping_witness :
    (get_pm2_services (some "[]")
        (fun _ => some [(⟨some 3, some "app", none, none⟩ : SvcJson)]) 0).length = 1 ∧
    ((get_pm2_services (some "[]")
        (fun _ => some [(⟨some 3, some "app", none, none⟩ : SvcJson)]) 0).getD 0
      blankRecord).version = "N/A" := by
  have h := get_pm2_services_mapping
    (fun _ => some [(⟨some 3, some "app", none, none⟩ : SvcJson)]) 0 "[]"
    [(⟨some 3, some "app", none, none⟩ : SvcJson)] (by decide) rfl
  exact ⟨by rw [h.1]; rfl, h.2.2.1 0 (by norm_num) rfl⟩

/-- C5: a failed or empty listing command and an unparseable listing each
yield the empty record list; the parse failure is absorbed (error dialog)
rather than propagated. -/
theorem get_pm2_services_failure_empty :
    (∀ (parse : String → Option (List SvcJson)) (now : ℚ),
      get_pm2_services none parse now = []) ∧
    (∀ (parse : String → Option (List SvcJson)) (now : ℚ),
      get_pm2_services (some "") parse now = []) ∧
    (∀ (parse : String → Option (List SvcJson)) (now : ℚ) (s : String),
      parse s = none → get_pm2_services (some s) parse now = []) := by
  refine ⟨fun parse now => rfl, fun parse now => by simp [get_pm2_services], ?_⟩
  intro parse now s hp
  simp only [get_pm2_services]
  split_ifs with h
  · rfl
  · rw [hp]

/-- Witness for C5 at a concrete unparseable output. -/
theorem get_pm2_services_failure_empty_witness :
    get_pm2_services (some "not json") (fun _ => none) 0 = [] :=
  get_pm2_services_failure_empty.2.2 (fun _ => none) 0 "not json" rfl

/-! ## Claims C2 and C3: execute_command -/

/-- C2 (code bug): the retry can never complete. After a failed first
attempt the code calls `connect()` under the already-held non-reentrant
lock: a successful network handshake deadlocks inside
`check_required_commands` before the command is ever re-issued, and a failed
handshake makes the call return `None` after the single original issue. In
particular no call that starts with a failed attempt ever returns a
successful result, contrary to the claimed reconnect-and-retry-success
outcome. -/
theorem execute_command_retry_deadlock (cmd : String) (env : SSHEnv)
    (hA : env.activeStart = true) (hfail : attemptFails (env.execRes 0) cmd) :
    (env.connectActive 0 = true → execute_command cmd env = CallOutcome.hang) ∧
    (env.connectActive 0 = false →
      execute_command cmd env = CallOutcome.ret none 1) ∧
    (∀ out n, execute_command cmd env ≠ CallOutcome.ret (some out) n) := by
  refine ⟨?_, ?_, ?_⟩
  · intro hc
    unfold execute_command execAttempt retryBranch
    rw [if_pos hA]
    rcases hfail with h0 | ⟨o, e, h0, hse⟩
    · simp [h0, hc]
    · simp [h0, hse, hc]
  · intro hc
    unfold execute_command execAttempt retryBranch
    rw [if_pos hA]
    rcases hfail with h0 | ⟨o, e, h0, hse⟩
    · simp [h0, hc]
    · simp [h0, hse, hc]
  · intro out n
    unfold execute_command execAttempt retryBranch
    rw [if_pos hA]
    rcases hfail with h0 | ⟨o, e, h0, hse⟩
    · cases hc : env.connectActive 0 <;> simp [h0, hc]
    · cases hc : env.connectActive 0 <;> simp [h0, hse, hc]

/-- Witness for C2: first attempt raises, network reconnect succeeds — the
call deadlocks instead of retrying. -/
theorem execute_command_retry_deadlock_witness :
    execute_command "ls" ⟨true, fun _ => true, fun _ => .raise⟩
      = CallOutcome.hang :=
  (execute_command_retry_deadlock "ls" _ rfl (Or.inl rfl)).1 rfl

/-- C3: with non-empty stderr, the command is treated as failed if and only
if it does not start with `"pm2 "`: a `pm2 `-prefixed command returns its
captured stdout as success from the single issue, while any other command
raises into the reconnect path and never yields a successful result (the
call returns `None` or deadlocks inside the reconnect, but never returns
output). -/
theorem execute_command_stderr_policy (cmd : String) (env : SSHEnv) (out err : String)
    (hA : env.activeStart = true) (h0 : env.execRes 0 = .ok out err) (hne : err ≠ "") :
    (startsWithPm2 cmd = true →
      execute_command cmd env = CallOutcome.ret (some out) 1) ∧
    (startsWithPm2 cmd = false →
      ∀ o n, execute_command cmd env ≠ CallOutcome.ret (some o) n) := by
  constructor
  · intro hpm
    have hsf : stderrFails cmd err = false := by simp [stderrFails, hpm]
    unfold execute_command execAttempt
    rw [if_pos hA]
    simp only [h0, hsf, Bool.false_eq_true, if_false, ite_false]
  · intro hpm o n
    have hsf : stderrFails cmd err = true := by simp [stderrFails, hpm, hne]
    unfold execute_command execAttempt retryBranch
    rw [if_pos hA]
    cases hc : env.connectActive 0 <;> simp [h0, hsf, hc]

/-- Witness for C3: a `pm2 ` command with a stderr warning still succeeds. -/
theorem execute_command_stderr_policy_witness :
    execute_command "pm2 jlist"
        ⟨true, fun _ => true, fun _ => .ok "[]" "warning"⟩
      = CallOutcome.ret (some "[]") 1 :=
  (execute_command_stderr_policy "pm2 jlist" _ "[]" "warning" rfl rfl (by decide)).1 (by decide)

/-! ## Claim C8: sort_column key policy -/

lemma mapM_eq_none {α β : Type} (f : α → Option β) :
    ∀ (l : List α) (v : α), v ∈ l → f v = none → l.mapM f = none := by
  intro l
  induction l with
  | nil => intro v hv; cases hv
  | cons x xs ih =>
    intro v hv hf
    rw [List.mapM_cons]
    rcases List.mem_cons.mp hv with rfl | hv2
    · rw [hf]; rfl
    · cases hx : f x
      · rfl
      · rw [ih v hv2 hf]; rfl

lemma mapM_isSome {α β : Type} (f : α → Option β) :
    ∀ l : List α, (∀ v ∈ l, (f v).isSome) → (l.mapM f).isSome := by
  intro l
  induction l with
  | nil => intro _; rfl
  | cons x xs ih =>
    intro h
    rw [List.mapM_cons]
    obtain ⟨y, hy⟩ := Option.isSome_iff_exists.mp (h x (by simp))
    obtain ⟨ys, hys⟩ := Option.isSome_iff_exists.mp (ih (fun v hv => h v (by simp [hv])))
    rw [hy, hys]
    rfl

/-- C8 counterexample: a string cell that is neither a number nor the
`"N/A"` sentinel does not get the key `-1`; its `float()` / `int()` call
raises, so the whole sort aborts (error dialog, list unchanged) instead of
sorting it to the low end as the claim requires. -/
theorem sort_column_unparseable_aborts :
    numeric_sort_key (CellVal.str "abc") = none ∧
    sort_column_numeric [CellVal.str "abc"] false = none ∧
    id_sort_key (CellVal.str "3.5") = none ∧
    sort_column_id [CellVal.str "3.5"] false = none := by
  refine ⟨by decide, ?_, by decide, ?_⟩
  · unfold sort_column_numeric
    rw [mapM_eq_none _ _ (CellVal.str "abc") (by simp) (by decide)]
  · unfold sort_column_id
    rw [mapM_eq_none _ _ (CellVal.str "3.5") (by simp) (by decide)]

/-- C8 (amended): for the numeric columns the sort key of a number is its
value and the key of `"N/A"` (or of a non-numeric, non-string value such as
`None`) is `-1`, so unavailable values collect at the low end; any other
string is parsed by `float()` (by `int()` for the id column), and when that
parse fails the whole sort aborts and the row order is left unchanged. -/
theorem sort_column_key_policy :
    (∀ q : ℚ, numeric_sort_key (CellVal.num q) = some q) ∧
    numeric_sort_key (CellVal.str "N/A") = some (-1) ∧
    numeric_sort_key CellVal.pynone = some (-1) ∧
    (∀ s : String, s ≠ "N/A" → numeric_sort_key (CellVal.str s) = pyFloatStr s) ∧
    id_sort_key (CellVal.str "N/A") = some (-1) ∧
    id_sort_key CellVal.pynone = some (-1) ∧
    (∀ s : String, s ≠ "N/A" → id_sort_key (CellVal.str s) = pyIntStr s) ∧
    (∀ (recs : List CellVal) (reverse : Bool) (v : CellVal), v ∈ recs →
      numeric_sort_key v = none → sort_column_numeric recs reverse = none) ∧
    (∀ (recs : List CellVal) (reverse : Bool),
      (∀ v ∈ recs, (numeric_sort_key v).isSome) →
      (sort_column_numeric recs reverse).isSome) ∧
    sort_column_numeric [CellVal.num 5, CellVal.str "N/A", CellVal.num 2] false
      = some [CellVal.str "N/A", CellVal.num 2, CellVal.num 5] := by
  refine ⟨fun q => rfl, rfl, rfl, ?_, rfl, rfl, ?_, ?_, ?_, ?_⟩
  · intro s hs
    simp [numeric_sort_key, hs]
  · intro s hs
    simp [id_sort_key, hs]
  · intro recs reverse v hv hk
    unfold sort_column_numeric
    rw [mapM_eq_none _ recs v hv (by rw [hk]; rfl)]
  · intro recs reverse hall
    unfold sort_column_numeric
    have hs : ((recs.mapM
        (fun v => (numeric_sort_key v).map (fun k => (k, v))))).isSome := by
      apply mapM_isSome
      intro v hv
      have := hall v hv
      obtain ⟨k, hk⟩ := Option.isSome_iff_exists.mp this
      rw [hk]
      rfl
    obtain ⟨keyed, hk⟩ := Option.isSome_iff_exists.mp hs
    rw [hk]
    rfl
  · unfold sort_column_numeric
    rw [show List.mapM (fun v => (numeric_sort_key v).map (fun k => (k, v)))
          [CellVal.num 5, CellVal.str "N/A", CellVal.num 2]
        = some [((5 : ℚ), CellVal.num 5), ((-1 : ℚ), CellVal.str "N/A"),
            ((2 : ℚ), CellVal.num 2)]
      from rfl]
    simp only [stableSort, insertLe]
    norm_num

/-- Witness for C8 (amended): a parseable numeric string keys by its value;
an unparseable one aborts the sort. -/
theorem sort_column_key_policy_witness :
    numeric_sort_key (CellVal.str "12.5") = pyFloatStr "12.5" ∧
    sort_column_numeric [CellVal.str "abc"] true = none :=
  ⟨sort_column_key_policy.2.2.2.1 "12.5" (by decide),
   sort_column_key_policy.2.2.2.2.2.2.2.1 [CellVal.str "abc"] true
     (CellVal.str "abc") (by simp) (by decide)⟩

/-! ## Claim C1: update_treeview reconciliation -/

lemma lookup_eq_none_of_not_mem {α : Type} (k : Int) :
    ∀ l : List (Int × α), k ∉ l.map Prod.fst → l.lookup k = none := by
  intro l
  induction l with
  | nil => intro _; rfl
  | cons x xs ih =>
    intro h
    have h1 : ¬ k = x.1 := by
      intro he
      exact h (by simp [he])
    have h2 : k ∉ xs.map Prod.fst := fun hm => h (by simp [hm])
    simp [List.lookup, beq_eq_false_iff_ne.mpr h1, ih h2]

lemma upsert_characterization {α : Type} (E : List Int) :
    ∀ (fresh A B : List (Int × α)),
      (∀ r ∈ A, r.1 ∈ E) →
      (∀ r ∈ B, r.1 ∉ E) →
      (∀ r ∈ B, r.1 ∉ fresh.map Prod.fst) →
      (fresh.map Prod.fst).Nodup →
      List.foldl
        (fun acc s =>
          if s.1 ∈ E then acc.map (fun r => if r.1 = s.1 then s else r) else acc ++ [s])
        (A ++ B) fresh
      = A.map (fun r =>
          match fresh.lookup r.1 with
          | some v => (r.1, v)
          | none => r)
        ++ B ++ fresh.filter (fun s => decide (s.1 ∉ E)) := by
  intro fresh
  induction fresh with
  | nil =>
    intro A B hA hB hBf hnd
    simp
  | cons s rest ih =>
    intro A B hA hB hBf hnd
    have hndr : (rest.map Prod.fst).Nodup := by
      rw [List.map_cons, List.nodup_cons] at hnd
      exact hnd.2
    have hs_rest : s.1 ∉ rest.map Prod.fst := by
      rw [List.map_cons, List.nodup_cons] at hnd
      exact hnd.1
    rw [List.foldl_cons]
    by_cases hs : s.1 ∈ E
    · rw [if_pos hs]
      have hBmap : (A ++ B).map (fun r => if r.1 = s.1 then s else r)
          = A.map (fun r => if r.1 = s.1 then s else r) ++ B := by
        rw [List.map_append]
        congr 1
        have : ∀ r ∈ B, (fun r => if r.1 = s.1 then s else r) r = id r := by
          intro r hr
          have : ¬ r.1 = s.1 := fun he => hB r hr (he ▸ hs)
          simp [this]
        rw [List.map_congr_left this, List.map_id]
      rw [hBmap]
      rw [ih (A.map (fun r => if r.1 = s.1 then s else r)) B
        (by
          intro r hr
          obtain ⟨a, ha, rfl⟩ := List.mem_map.mp hr
          by_cases he : a.1 = s.1
          · simp only [if_pos he]
            exact he ▸ hA a ha
          · simp only [if_neg he]
            exact hA a ha)
        hB
        (fun r hr => fun hm => hBf r hr (by simp [hm]))
        hndr]
      have hmapmap : (A.map (fun r => if r.1 = s.1 then s else r)).map
            (fun r => match rest.lookup r.1 with | some v => (r.1, v) | none => r)
          = A.map (fun r =>
              match (s :: rest).lookup r.1 with | some v => (r.1, v) | none => r) := by
        rw [List.map_map]
        apply List.map_congr_left
        intro a _
        by_cases he : a.1 = s.1
        · simp only [Function.comp, if_pos he]
          rw [lookup_eq_none_of_not_mem _ _ hs_rest,
            show (s :: rest).lookup a.1 = some s.2 by simp [List.lookup, he]]
          show s = (a.1, s.2)
          rw [he]
        · simp only [Function.comp, if_neg he]
          have : (s :: rest).lookup a.1 = rest.lookup a.1 := by
            simp [List.lookup, beq_eq_false_iff_ne.mpr he]
          rw [this]
      rw [hmapmap]
      have hfil : (s :: rest).filter (fun x => decide (x.1 ∉ E))
          = rest.filter (fun x => decide (x.1 ∉ E)) := by
        rw [List.filter_cons]
        simp [hs]
      rw [hfil]
    · rw [if_neg hs]
      have hassoc : (A ++ B) ++ [s] = A ++ (B ++ [s]) := by
        rw [List.append_assoc]
      rw [hassoc]
      rw [ih A (B ++ [s])
        hA
        (by
          intro r hr
          rcases List.mem_append.mp hr with h | h
          · exact hB r h
          · simp only [List.mem_singleton] at h
            exact h ▸ hs)
        (by
          intro r hr
          rcases List.mem_append.mp hr with h | h
          · exact fun hm => hBf r h (by simp [hm])
          · simp only [List.mem_singleton] at h
            exact h ▸ hs_rest)
        hndr]
      have hmap : A.map (fun r => match rest.lookup r.1 with | some v => (r.1, v) | none => r)
          = A.map (fun r =>
              match (s :: rest).lookup r.1 with | some v => (r.1, v) | none => r) := by
        apply List.map_congr_left
        intro a ha
        have he : ¬ a.1 = s.1 := fun he => hs (he ▸ hA a ha)
        have : (s :: rest).lookup a.1 = rest.lookup a.1 := by
          simp [List.lookup, beq_eq_false_iff_ne.mpr he]
        rw [this]
      rw [hmap]
      have hfil : (s :: rest).filter (fun x => decide (x.1 ∉ E))
          = s :: rest.filter (fun x => decide (x.1 ∉ E)) := by
        rw [List.filter_cons]
        simp [hs]
      rw [hfil]
      simp [List.append_assoc]

lemma applyAll_fst {α : Type} (fresh : List (Int × α)) (r : Int × α) :
    (match fresh.lookup r.1 with | some v => (r.1, v) | none => r).1 = r.1 := by
  cases fresh.lookup r.1 <;> rfl

/-- C1: `update_treeview` reconciles by key: a row whose id occurs in both
the previous display and the filtered fresh set is updated in place (same
position), ids only in the fresh set are appended at the end in fresh order,
and ids only in the previous display are removed — exactly the
`reconcileSpec` description. -/
theorem update_treeview_reconcile {α : Type} (rows fresh : List (Int × α))
    (hrows : (rows.map Prod.fst).Nodup) (hfresh : (fresh.map Prod.fst).Nodup) :
    update_treeview rows fresh = reconcileSpec rows fresh := by
  simp only [update_treeview, reconcileSpec]
  have h := upsert_characterization (rows.map Prod.fst) fresh rows []
    (fun r hr => List.mem_map_of_mem Prod.fst hr)
    (by intro r hr; cases hr)
    (by intro r hr; cases hr)
    hfresh
  simp only [List.append_nil] at h
  rw [h, List.filter_append]
  congr 1
  · apply List.filter_congr
    intro r hr
    obtain ⟨a, ha, rfl⟩ := List.mem_map.mp hr
    have hkey := applyAll_fst fresh a
    have hmem : a.1 ∈ rows.map Prod.fst := List.mem_map_of_mem Prod.fst ha
    simp [hkey, hmem]
  · apply List.filter_eq_self.mpr
    intro r hr
    have hm := (List.mem_filter.mp hr).2
    simp only [decide_eq_true_eq] at hm
    simp [hm]

/-- Witness for C1 at previous ids `{1,2,3}` and fresh ids `{2,3,4}`: row 1
is deleted, row 4 appended, rows 2 and 3 updated in place, 2 kept before 3. -/
theorem update_treeview_reconcile_witness :
    update_treeview [((1 : Int), (10 : Nat)), (2, 20), (3, 30)]
        [((2 : Int), (21 : Nat)), (3, 31), (4, 41)]
      = reconcileSpec [((1 : Int), (10 : Nat)), (2, 20), (3, 30)]
          [((2 : Int), (21 : Nat)), (3, 31), (4, 41)] ∧
    update_treeview [((1 : Int), (10 : Nat)), (2, 20), (3, 30)]
        [((2 : Int), (21 : Nat)), (3, 31), (4, 41)]
      = [(2, 21), (3, 31), (4, 41)] :=
  ⟨update_treeview_reconcile _ _ (by decide) (by decide), by decide⟩
